import Mathlib

/-!
Shallow embedding of the ROI / line-list marker logic of the two
`PlotSubWindow` classes of this repository
(`src/specviz/widgets/sub_windows.py` and
`src/pyfocal/ui/widgets/sub_windows.py`).

Wavelengths, view ranges and marker coordinates are embedded as rationals;
numpy boolean arrays as `List Bool`; Python object identity (used by
`list.remove` and by marker replacement) as a `uid : Nat` field drawn from a
freshness counter threaded through the state.
-/

/-- A spectrum layer: its wavelength samples (`masked_dispersion`, the data
values of the masked array) and its own validity mask (`layer_mask`).
The `name` field stands in for Python object identity in `==` comparisons. -/
structure Layer where
  name : Nat
  masked_dispersion : List ℚ
  layer_mask : List Bool
deriving DecidableEq

/-- A `LinearRegionItem` ROI: `uid` models Python object identity, `region`
is the `(x1, x2)` pair returned by `getRegion()`. -/
structure LinearRegionItem where
  uid : Nat
  region : ℚ × ℚ
deriving DecidableEq

/-- `roi.getRegion()`. -/
def LinearRegionItem.getRegion (r : LinearRegionItem) : ℚ × ℚ :=
  r.region

/-- A `LinePlot` container displayed in the specviz window; it wraps a layer. -/
structure LinePlot where
  layer : Layer
deriving DecidableEq

/-- The specviz `PlotSubWindow` state relevant to the ROI claims:
the displayed plots `_plots`, the ROI list `_rois`, and a freshness
counter supplying uids for newly constructed Python objects. -/
structure PlotSubWindow where
  _plots : List LinePlot
  _rois : List LinearRegionItem
  next_uid : Nat

/-- `PlotSubWindow.get_plot(layer)`: first plot whose layer equals `layer`,
`None` if no plot matches. -/
def get_plot (w : PlotSubWindow) (layer : Layer) : Option LinePlot :=
  w._plots.find? (fun p => p.layer = layer)

/-- Pointwise `np.logical_or` of two equal-shape boolean arrays. -/
def zipOr (a b : List Bool) : List Bool :=
  List.zipWith or a b

/-- Pointwise `np.logical_and` of two equal-shape boolean arrays. -/
def zipAnd (a b : List Bool) : List Bool :=
  List.zipWith and a b

/-- The per-ROI comparison
`(container.layer.masked_dispersion.data.value >= x1) & (... <= x2)`. -/
def roiMask (disp : List ℚ) (x1 x2 : ℚ) : List Bool :=
  disp.map (fun v => decide (x1 ≤ v) && decide (v ≤ x2))

/-- The ROI set a `get_roi_mask` call works over:
`rois = [roi] if roi is not None else self._rois`. -/
def used_rois (rois : List LinearRegionItem) (roi : Option LinearRegionItem) :
    List LinearRegionItem :=
  match roi with
  | some r => [r]
  | none => rois

/-- `PlotSubWindow.get_roi_mask(layer, container, roi)` of
`src/specviz/widgets/sub_windows.py` (lines 211-236), for the call pattern
used throughout the repository where a `layer` is passed and `container` is
left `None` (the container is then always resolved through `get_plot`).
Returns `none` for the bare `return` when no container is found. -/
def get_roi_mask (w : PlotSubWindow) (layer : Layer)
    (roi : Option LinearRegionItem) : Option (List Bool) :=
  match get_plot w layer with
  | none => none
  | some container =>
    let mask := List.replicate layer.masked_dispersion.length true
    let rois := used_rois w._rois roi
    let mask_holder := rois.map (fun r =>
      roiMask container.layer.masked_dispersion r.getRegion.1 r.getRegion.2)
    match mask_holder with
    | [] => some mask
    | m :: ms =>
      some (zipAnd container.layer.layer_mask (ms.foldl zipOr m))

/-- A pyfocal plot container: wraps a layer and exposes `container.dispersion`
directly. -/
structure PFContainer where
  layer : Layer
  dispersion : List ℚ
deriving DecidableEq

/-- The pyfocal `PlotSubWindow` state relevant to the ROI claims. -/
structure PFPlotSubWindow where
  _containers : List PFContainer
  _rois : List LinearRegionItem

/-- `PlotSubWindow.get_container(layer)` of
`src/pyfocal/ui/widgets/sub_windows.py`. -/
def get_container (w : PFPlotSubWindow) (layer : Layer) : Option PFContainer :=
  w._containers.find? (fun c => c.layer = layer)

/-- `PlotSubWindow.get_roi_mask(layer, container, roi)` of
`src/pyfocal/ui/widgets/sub_windows.py` (lines 121-146), for the call
pattern where a `layer` is passed and `container` is left `None`.
Note: unlike the specviz version, the result is the bare union of the
per-ROI interval masks; it is never intersected with the layer's own
validity mask. -/
def pf_get_roi_mask (w : PFPlotSubWindow) (layer : Layer)
    (roi : Option LinearRegionItem) : Option (List Bool) :=
  match get_container w layer with
  | none => none
  | some container =>
    let rois := used_rois w._rois roi
    let mask_holder := rois.map (fun r =>
      roiMask container.dispersion r.getRegion.1 r.getRegion.2)
    match mask_holder with
    | [] => some (List.replicate container.dispersion.length true)
    | m :: ms => some (ms.foldl zipOr m)

/-- The default bounds computed by `PlotSubWindow.add_roi` when
`bounds is None` (specviz lines 252-256; pyfocal lines 149-151 are the
same formula): half the view width, starting a quarter of the way in. -/
def default_roi_bounds (view_x : ℚ × ℚ) : ℚ × ℚ :=
  let x_len := (view_x.2 - view_x.1) * (1 / 2)
  let x_pos := x_len * (1 / 2) + view_x.1
  (x_pos, x_pos + x_len)

/-- `PlotSubWindow.add_roi(bounds)` effect on the window state: a fresh
`LinearRegionItem(values=[start, stop])` is constructed and appended to
`self._rois`. The current view range `self._plot_item.viewRange()[0]` is
passed as `view_x`; the freshness counter models the identity of the new
Python object. -/
def add_roi (w : PlotSubWindow) (bounds : Option (ℚ × ℚ)) (view_x : ℚ × ℚ) :
    PlotSubWindow :=
  let b := match bounds with
    | none => default_roi_bounds view_x
    | some b0 => b0
  { w with _rois := w._rois ++ [⟨w.next_uid, b⟩],
           next_uid := w.next_uid + 1 }

/-- The `remove` closure created inside `add_roi` and connected to
`roi.sigRemoveRequested`: `self._rois.remove(roi)` removes the first list
entry that is the same object (`LinearRegionItem` inherits Python's default
identity-based `==`, modelled by `uid`). -/
def remove_roi (w : PlotSubWindow) (roi : LinearRegionItem) : PlotSubWindow :=
  { w with _rois := w._rois.eraseP (fun r => r.uid == roi.uid) }

/-- A `LineIDMarker` graphics item: `uid` models Python object identity,
`x`/`y` its position as set by `setPos`. -/
structure LineIDMarker where
  uid : Nat
  x : ℚ
  y : ℚ
deriving DecidableEq

/-- One row of the merged line list, restricted to the columns that
`handle_zoom` reads: the `HEIGHT_COLUMN` fraction and the `MARKER_COLUMN`
graphics item. -/
structure LLRow where
  height : ℚ
  marker : LineIDMarker
deriving DecidableEq

/-- The merged line list, stored row-wise. -/
abbrev MergedLineList := List LLRow

/-- `PlotSubWindow._compute_height(merged_linelist, yrange)`
(specviz lines 613-617): numpy broadcast of
`(ymax - ymin) * merged_linelist.columns[HEIGHT_COLUMN] + ymin`. -/
def _compute_height (merged_linelist : MergedLineList) (yrange : ℚ × ℚ) :
    List ℚ :=
  merged_linelist.map (fun row => (yrange.2 - yrange.1) * row.height + yrange.1)

/-- `PlotSubWindow._clean_markers(markers, xrange)` (specviz lines 619-644):
computes the horizontal gaps between consecutive markers; all code acting on
the result is commented out, so the call has no effect on any state. -/
def _clean_markers (markers : List LineIDMarker) (xrange : ℚ × ℚ) : List ℚ :=
  let x := markers.map (fun m => m.x)
  let p := x.map (fun v => v - xrange.1)
  List.zipWith (fun a b => b - a) p (p.drop 1)

/-- The observable actions `handle_zoom` performs on the plot widget, in
order: detaching/attaching the `sigYRangeChanged` connection, removing and
adding graphics items (by uid), and `self._plot_item.update()`. -/
inductive PlotAction where
  | disconnectYRange
  | connectYRange
  | removeItem (uid : Nat)
  | addItem (uid : Nat)
  | update
deriving DecidableEq

/-- The specviz `PlotSubWindow` state relevant to the zoom/marker claims:
the uids of the graphics items on the plot surface, the merged line list
(absent until `_plot_linelists` ran), the `_is_displaying_markers` flag, and
the freshness counter for newly constructed markers. -/
structure ZoomWindow where
  plot_items : List Nat
  merged_linelist : Option MergedLineList
  _is_displaying_markers : Bool
  next_uid : Nat

/-- The `for row_index in range(len(marker_column))` loop of `handle_zoom`
(specviz lines 513-522): each old marker is removed from the plot, a new
`LineIDMarker(marker=marker)` is constructed, positioned by
`setPos(marker.x(), height_array[row_index])`, and stored back in the
marker column. Returns the new marker column, the plot item set after the
removals, the action trace, and the advanced freshness counter. -/
def zoom_rebuild : List (LLRow × ℚ) → List Nat → Nat →
    MergedLineList × List Nat × List PlotAction × Nat
  | [], items, u => ([], items, [], u)
  | (row, h) :: rest, items, u =>
    let items1 := items.erase row.marker.uid
    let new_marker : LineIDMarker := ⟨u, row.marker.x, h⟩
    let r := zoom_rebuild rest items1 (u + 1)
    ({ row with marker := new_marker } :: r.1, r.2.1,
     PlotAction.removeItem row.marker.uid :: r.2.2.1, r.2.2.2)

/-- `PlotSubWindow.handle_zoom(xrange, yrange)` (specviz lines 500-532).
When a merged line list exists and markers are displayed: the
`sigYRangeChanged` connection is detached, the height column is recomputed
with `_compute_height`, every marker is removed and rebuilt at
`(old x, new height)`, `_clean_markers` is called (no effect), the new
markers are added to the plot, the plot is updated and the connection is
reattached. Otherwise nothing happens. Returns the new state and the
ordered action trace. -/
def handle_zoom (w : ZoomWindow) (xrange yrange : ℚ × ℚ) :
    ZoomWindow × List PlotAction :=
  match w.merged_linelist, w._is_displaying_markers with
  | some ll, true =>
    let height_array := _compute_height ll yrange
    let r := zoom_rebuild (ll.zip height_array) w.plot_items w.next_uid
    let marker_column := r.1
    ({ plot_items := r.2.1 ++ marker_column.map (fun row => row.marker.uid),
       merged_linelist := some marker_column,
       _is_displaying_markers := w._is_displaying_markers,
       next_uid := r.2.2.2 },
     PlotAction.disconnectYRange :: r.2.2.1
       ++ marker_column.map (fun row => PlotAction.addItem row.marker.uid)
       ++ [PlotAction.update, PlotAction.connectYRange])
  | _, _ => (w, [])

/-- Events emitted on the dispatch bus by `add_plot`. -/
inductive DispatchEvent where
  | on_remove_layer (layer : Layer)
  | on_added_layer (layer : Layer)
  | on_added_plot
deriving DecidableEq

/-- Log entries written by `add_plot`. -/
inductive LogEntry where
  | warning_dispersion_mismatch
  | error_unit_conversion
deriving DecidableEq

/-- `PlotSubWindow.add_plot(layer, window, style)` (specviz lines 359-438),
its effect on `self._plots`, the dispatch bus and the log. Decisions taken
by collaborators outside `src/` are supplied as parameters:
`same_sampling` is the `all(map(comp_disp, ...))` outcome,
`resample_accepted` the `ResampleDialog.exec_()` answer, `resampled` the
layer produced by the resampling branch, `new_plot_of` the
`LinePlot.from_layer` constructor of `core.plots`, and `is_convert_success`
the `(x, y)` outcome of `new_plot.change_units(*self._plot_units)`.
When the window already has plots and either unit conversion fails, the
failure is logged, `on_remove_layer` is emitted and the method returns with
`self._plots` untouched; otherwise the new plot is appended. -/
def add_plot (w : PlotSubWindow) (layer : Layer)
    (same_sampling resample_accepted : Bool)
    (resampled : Layer → Layer)
    (new_plot_of : Layer → LinePlot)
    (is_convert_success : Bool × Bool) :
    PlotSubWindow × List DispatchEvent × List LogEntry :=
  let layer1 :=
    if same_sampling then layer
    else if resample_accepted then resampled layer
    else layer
  let log0 : List LogEntry :=
    if same_sampling then [] else [LogEntry.warning_dispersion_mismatch]
  let new_plot := new_plot_of layer1
  if w._plots.length = 0 then
    ({ w with _plots := w._plots ++ [new_plot] },
     [DispatchEvent.on_added_layer layer1, DispatchEvent.on_added_plot],
     log0)
  else if !is_convert_success.1 || !is_convert_success.2 then
    (w, [DispatchEvent.on_remove_layer layer1],
     log0 ++ [LogEntry.error_unit_conversion])
  else
    ({ w with _plots := w._plots ++ [new_plot] },
     [DispatchEvent.on_added_layer layer1, DispatchEvent.on_added_plot],
     log0)

/-- One catalog row as read from a loaded line list. -/
structure CatRow where
  wavelength : ℚ
  line_id : Nat
deriving DecidableEq

/-- A loaded line-list catalog (`self.linelists` entry): its name and rows. -/
structure LineListCat where
  name : Nat
  rows : List CatRow
deriving DecidableEq

/-- One styled row of the merged line list: redshift-corrected wavelength,
id, assigned color and height fraction. -/
structure StyledRow where
  redshifted_wavelength : ℚ
  line_id : Nat
  color : Nat
  height : ℚ
deriving DecidableEq

/-- A line-list table view: the catalog name `table_view.model().getName()`
and the selected model row indices (after `mapToSource`). -/
structure TableView where
  name : Nat
  selected_rows : List Nat
deriving DecidableEq

/-- The set-up pane accompanying a table view: redshift text box (present
when `hasAcceptableInput`), color combo box value, height text box. -/
structure Pane where
  redshift : Option ℚ
  color : Nat
  height : Option ℚ
deriving DecidableEq

/-- Modelled from the spec: `LineList.extract_rows(model_selected_rows)` of
`core.linelist`, which is not under `src/` — builds a new list holding only
the selected rows. -/
def extract_rows (ll : LineListCat) (idxs : List Nat) : List CatRow :=
  idxs.filterMap (fun i => ll.rows.get? i)

/-- Modelled from the spec: the `setRedshift` / `setColor` / `setHeight`
styling of `core.linelist`, which is not under `src/` — each selected row
carries its source catalog's redshift-corrected wavelength, assigned color
and assigned height fraction. -/
def style_rows (rows : List CatRow) (pane : Pane) : List StyledRow :=
  rows.map (fun r =>
    { redshifted_wavelength :=
        match pane.redshift with
        | some z => r.wavelength * (1 + z)
        | none => r.wavelength,
      line_id := r.line_id,
      color := pane.color,
      height := match pane.height with
        | some h => h
        | none => 1 })

/-- The selection loop of `PlotSubWindow._plot_linelists` (specviz lines
659-700): for each `(table_view, pane)` pair, every loaded line list whose
name equals the view's name contributes its selected, styled rows to
`linelists_with_selections`; a view whose name matches no loaded line list
contributes nothing. -/
def linelists_with_selections (linelists : List LineListCat)
    (views : List (TableView × Pane)) : List (List StyledRow) :=
  views.flatMap (fun vp =>
    (linelists.filter (fun ll => ll.name = vp.1.name)).map
      (fun ll => style_rows (extract_rows ll vp.1.selected_rows) vp.2))

/-- Modelled from the spec: `LineList.merge(linelists_with_selections,
units)` of `core.linelist`, which is not under `src/` — combines the
selected lists into the single merged line list (row concatenation). -/
def LineList_merge (ls : List (List StyledRow)) : List StyledRow :=
  ls.flatten

/-- Example layer displayed in the concrete windows below. -/
def layerEx : Layer := ⟨0, [1, 3, 5], [true, true, false]⟩

/-- Example layer displayed in no window. -/
def layerAbsent : Layer := ⟨7, [2, 4], [true, true]⟩

/-- Concrete specviz window displaying `layerEx` with no ROI. -/
def windowNoRois : PlotSubWindow := ⟨[⟨layerEx⟩], [], 3⟩

/-- Concrete specviz window displaying `layerEx` with two ROIs. -/
def windowTwoRois : PlotSubWindow :=
  ⟨[⟨layerEx⟩], [⟨0, (0, 2)⟩, ⟨1, (4, 6)⟩], 3⟩

/-- Concrete pyfocal window displaying `layerEx` with no ROI. -/
def pfWindowNoRois : PFPlotSubWindow := ⟨[⟨layerEx, [1, 3, 5]⟩], []⟩

/-- Layer whose own validity mask is false at its only sample. -/
def cexLayer : Layer := ⟨1, [5], [false]⟩

/-- Concrete pyfocal window displaying `cexLayer`, with one ROI `[0, 10]`
containing the sample. -/
def cexWindow : PFPlotSubWindow := ⟨[⟨cexLayer, [5]⟩], [⟨0, (0, 10)⟩]⟩

/-- Concrete loaded catalog. -/
def catA : LineListCat := ⟨0, [⟨100, 0⟩, ⟨200, 1⟩]⟩

/-- Table view matching `catA` by name. -/
def viewA : TableView := ⟨0, [0, 1]⟩

/-- Table view whose name matches no loaded catalog. -/
def viewGhost : TableView := ⟨5, [0]⟩

/-- Concrete pane settings. -/
def paneEx : Pane := ⟨some (1 / 10), 2, some (3 / 4)⟩

/-- Concrete merged line list with two rows: height fractions `1/2` and
`1/4`, markers with uids `10` and `11` placed at `x = 2` and `x = 4`. -/
def llEx : MergedLineList := [⟨1 / 2, ⟨10, 2, 0⟩⟩, ⟨1 / 4, ⟨11, 4, 0⟩⟩]

/-- Concrete zoom-window state: both markers are on the plot, markers are
displayed, and uids below `12` are in use. -/
def zoomEx : ZoomWindow := ⟨[10, 11], some llEx, true, 12⟩

/-- C9: `add_roi` with bounds omitted creates a region spanning the middle
half of the current view range:
`[vmin + (vmax - vmin)/4, vmin + 3*(vmax - vmin)/4]`. -/
theorem add_roi_default_bounds_middle_half (w : PlotSubWindow)
    (view_x : ℚ × ℚ) :
    (add_roi w none view_x)._rois =
      w._rois ++ [⟨w.next_uid,
        (view_x.1 + (1 / 4) * (view_x.2 - view_x.1),
         view_x.1 + (3 / 4) * (view_x.2 - view_x.1))⟩] := by
  have hb : default_roi_bounds view_x =
      (view_x.1 + (1 / 4) * (view_x.2 - view_x.1),
       view_x.1 + (3 / 4) * (view_x.2 - view_x.1)) := by
    simp only [default_roi_bounds, Prod.mk.injEq]
    constructor <;> ring
  simp [add_roi, hb]

/-- C2: with zero ROIs registered and no explicit ROI, `get_roi_mask`
returns an all-true mask whose length is the layer's number of wavelength
samples (specviz and pyfocal implementations). -/
theorem get_roi_mask_zero_rois_all_true :
    (∀ (w : PlotSubWindow) (layer : Layer) (c : LinePlot),
        get_plot w layer = some c → w._rois = [] →
        get_roi_mask w layer none =
          some (List.replicate layer.masked_dispersion.length true)) ∧
    (∀ (w : PFPlotSubWindow) (layer : Layer) (c : PFContainer),
        get_container w layer = some c → w._rois = [] →
        pf_get_roi_mask w layer none =
          some (List.replicate c.dispersion.length true)) := by
  constructor
  · intro w layer c hc hr
    simp [get_roi_mask, hc, used_rois, hr]
  · intro w layer c hc hr
    simp [pf_get_roi_mask, hc, used_rois, hr]

/-- Witness for C2 at a concrete window. -/
theorem get_roi_mask_zero_rois_all_true_witness :
    get_roi_mask windowNoRois layerEx none = some [true, true, true] ∧
    pf_get_roi_mask pfWindowNoRois layerEx none = some [true, true, true] := by
  constructor
  · exact (get_roi_mask_zero_rois_all_true.1 windowNoRois layerEx
      ⟨layerEx⟩ (by decide) rfl).trans (by rfl)
  · exact (get_roi_mask_zero_rois_all_true.2 pfWindowNoRois layerEx
      ⟨layerEx, [1, 3, 5]⟩ (by decide) rfl).trans (by rfl)

/-- C10: `get_roi_mask` for a layer with no corresponding plot container in
the window returns `None`, whatever the ROI argument and however many ROIs
are registered (specviz and pyfocal implementations). -/
theorem get_roi_mask_unmatched_layer_none :
    (∀ (w : PlotSubWindow) (layer : Layer) (roi : Option LinearRegionItem),
        (∀ p ∈ w._plots, p.layer ≠ layer) →
        get_roi_mask w layer roi = none) ∧
    (∀ (w : PFPlotSubWindow) (layer : Layer) (roi : Option LinearRegionItem),
        (∀ c ∈ w._containers, c.layer ≠ layer) →
        pf_get_roi_mask w layer roi = none) := by
  constructor
  · intro w layer roi h
    have hc : get_plot w layer = none := by
      rw [get_plot, List.find?_eq_none]
      intro p hp
      simpa using h p hp
    simp [get_roi_mask, hc]
  · intro w layer roi h
    have hc : get_container w layer = none := by
      rw [get_container, List.find?_eq_none]
      intro c hcm
      simpa using h c hcm
    simp [pf_get_roi_mask, hc]

/-- Witness for C10 at a concrete window. -/
theorem get_roi_mask_unmatched_layer_none_witness :
    get_roi_mask windowTwoRois layerAbsent none = none ∧
    pf_get_roi_mask pfWindowNoRois layerAbsent (some ⟨9, (0, 10)⟩) = none := by
  constructor
  · exact get_roi_mask_unmatched_layer_none.1 windowTwoRois layerAbsent none
      (by decide)
  · exact get_roi_mask_unmatched_layer_none.2 pfWindowNoRois layerAbsent
      (some ⟨9, (0, 10)⟩) (by decide)

/-- C4: the recomputed vertical marker position of each row equals
`(ymax - ymin) * row_height_fraction + ymin`. -/
theorem compute_height_row_formula (merged_linelist : MergedLineList)
    (yrange : ℚ × ℚ) (i : Nat) (row : LLRow)
    (hrow : merged_linelist[i]? = some row) :
    (_compute_height merged_linelist yrange)[i]? =
      some ((yrange.2 - yrange.1) * row.height + yrange.1) := by
  simp [_compute_height, List.getElem?_map, hrow]

/-- Witness for C4: `yrange = (0, 10)` and height fraction `0.5` give
marker height `5`. -/
theorem compute_height_row_formula_witness :
    (_compute_height [⟨1 / 2, ⟨0, 1, 2⟩⟩] (0, 10))[0]? = some 5 := by
  have h := compute_height_row_formula [⟨1 / 2, ⟨0, 1, 2⟩⟩] (0, 10) 0
    ⟨1 / 2, ⟨0, 1, 2⟩⟩ rfl
  rw [h]
  norm_num

/-- C3: adding a ROI and then removing the ROI this add created (the fresh
object, identified by its uid) restores `_rois` to its prior value. -/
theorem add_remove_roi_roundtrip (w : PlotSubWindow)
    (bounds : Option (ℚ × ℚ)) (view_x : ℚ × ℚ) (roi : LinearRegionItem)
    (hfresh : ∀ r ∈ w._rois, r.uid < w.next_uid)
    (hroi : roi.uid = w.next_uid) :
    (remove_roi (add_roi w bounds view_x) roi)._rois = w._rois := by
  have hnone : ∀ r ∈ w._rois, ¬((r.uid == roi.uid) = true) := by
    intro r hr
    have hlt := hfresh r hr
    simp only [beq_iff_eq, hroi]
    omega
  simp only [remove_roi, add_roi]
  rw [List.eraseP_append_right _ hnone,
    List.eraseP_cons_of_pos (by simp [hroi]), List.append_nil]

/-- Witness for C3 at a concrete window. -/
theorem add_remove_roi_roundtrip_witness :
    (remove_roi (add_roi ⟨[], [⟨0, (1, 2)⟩], 1⟩ none (0, 4))
        ⟨1, (1, 3)⟩)._rois = [⟨0, (1, 2)⟩] := by
  exact add_remove_roi_roundtrip ⟨[], [⟨0, (1, 2)⟩], 1⟩ none (0, 4)
    ⟨1, (1, 3)⟩ (by decide) rfl

/-- C7: a table view whose catalog name matches no loaded line list
contributes no rows: the merged result equals the one computed without that
view, and no error occurs. -/
theorem merge_skips_unmatched_view (linelists : List LineListCat)
    (pre post : List (TableView × Pane)) (v : TableView) (p : Pane)
    (habs : ∀ ll ∈ linelists, ll.name ≠ v.name) :
    LineList_merge
        (linelists_with_selections linelists (pre ++ (v, p) :: post)) =
      LineList_merge (linelists_with_selections linelists (pre ++ post)) := by
  have hfil : linelists.filter (fun ll => ll.name = v.name) = [] := by
    rw [List.filter_eq_nil_iff]
    intro ll hll
    simpa using habs ll hll
  simp [linelists_with_selections, LineList_merge, List.flatMap_append,
    List.flatMap_cons, hfil]

/-- Witness for C7 at concrete catalogs and views. -/
theorem merge_skips_unmatched_view_witness :
    LineList_merge (linelists_with_selections [catA]
        [(viewA, paneEx), (viewGhost, paneEx)]) =
      LineList_merge (linelists_with_selections [catA] [(viewA, paneEx)]) := by
  exact merge_skips_unmatched_view [catA] [(viewA, paneEx)] [] viewGhost
    paneEx (by decide)

/-- C6: when the window already displays at least one plot and unit
conversion of the new overlay fails, `add_plot` logs the failure, emits a
layer-removal event, and aborts with the plot list unchanged (no plot-added
event, nothing appended). -/
theorem add_plot_unit_conversion_failure_aborts (w : PlotSubWindow)
    (layer : Layer) (same_sampling resample_accepted : Bool)
    (resampled : Layer → Layer) (new_plot_of : Layer → LinePlot)
    (is_convert_success : Bool × Bool)
    (res : PlotSubWindow × List DispatchEvent × List LogEntry)
    (hplots : w._plots ≠ [])
    (hfail : is_convert_success.1 = false ∨ is_convert_success.2 = false)
    (hres : add_plot w layer same_sampling resample_accepted resampled
        new_plot_of is_convert_success = res) :
    res.1._plots = w._plots ∧
    (∃ l1, DispatchEvent.on_remove_layer l1 ∈ res.2.1) ∧
    LogEntry.error_unit_conversion ∈ res.2.2 ∧
    DispatchEvent.on_added_plot ∉ res.2.1 := by
  subst hres
  have hlen : ¬(w._plots.length = 0) := by
    simpa [List.length_eq_zero] using hplots
  have hcond : (!is_convert_success.1 || !is_convert_success.2) = true := by
    rcases hfail with h | h <;> simp [h]
  simp [add_plot, hlen, hcond]

/-- Witness for C6 at a concrete window with a failing y-axis conversion. -/
theorem add_plot_unit_conversion_failure_aborts_witness :
    (add_plot windowNoRois layerAbsent true true id (fun l => ⟨l⟩)
        (true, false)).1._plots = windowNoRois._plots := by
  exact (add_plot_unit_conversion_failure_aborts windowNoRois layerAbsent
    true true id (fun l => ⟨l⟩) (true, false) _ (by decide)
    (Or.inr rfl) rfl).1

/-- Element lookup in a pointwise `np.logical_or`. -/
theorem zipOr_getElem? {a b : List Bool} {i : Nat} {u v : Bool}
    (ha : a[i]? = some u) (hb : b[i]? = some v) :
    (zipOr a b)[i]? = some (u || v) := by
  simp [zipOr, List.getElem?_zipWith, ha, hb]

/-- Element lookup in a pointwise `np.logical_and`. -/
theorem zipAnd_getElem? {a b : List Bool} {i : Nat} {u v : Bool}
    (ha : a[i]? = some u) (hb : b[i]? = some v) :
    (zipAnd a b)[i]? = some (u && v) := by
  simp [zipAnd, List.getElem?_zipWith, ha, hb]

/-- Element lookup in a per-ROI interval mask. -/
theorem roiMask_getElem? {disp : List ℚ} {i : Nat} {x : ℚ} (x1 x2 : ℚ)
    (hx : disp[i]? = some x) :
    (roiMask disp x1 x2)[i]? =
      some (decide (x1 ≤ x) && decide (x ≤ x2)) := by
  simp [roiMask, List.getElem?_map, hx]

/-- Element lookup in the `reduce(np.logical_or, mask_holder)` fold: the
result at sample `i` is the accumulator's bit or-ed with the interval tests
of all remaining ROIs. -/
theorem foldl_zipOr_getElem? (disp : List ℚ) (i : Nat) (x : ℚ)
    (hx : disp[i]? = some x) (rs : List LinearRegionItem) :
    ∀ (acc : List Bool) (v : Bool), acc[i]? = some v →
      ((rs.map (fun r =>
          roiMask disp r.getRegion.1 r.getRegion.2)).foldl zipOr acc)[i]? =
        some (v || rs.any (fun r =>
          decide (r.getRegion.1 ≤ x) && decide (x ≤ r.getRegion.2))) := by
  induction rs with
  | nil =>
    intro acc v hacc
    simpa using hacc
  | cons r rs ih =>
    intro acc v hacc
    have hmask := roiMask_getElem? r.getRegion.1 r.getRegion.2 hx
    have hstep := zipOr_getElem? hacc hmask
    have hrest := ih _ _ hstep
    simp only [List.map_cons, List.foldl_cons]
    rw [hrest]
    simp [List.any_cons, Bool.or_assoc]

/-- C1 (amended to the specviz implementation): for a displayed layer and a
non-empty ROI set (or a single explicit ROI), the returned mask is true at
a sample exactly when the wavelength there lies inside the union of the
closed ROI intervals and the layer's own validity mask is true there. -/
theorem get_roi_mask_union_and_layer_mask (w : PlotSubWindow) (layer : Layer)
    (roi : Option LinearRegionItem) (c : LinePlot)
    (hc : get_plot w layer = some c)
    (hne : used_rois w._rois roi ≠ [])
    (i : Nat) (x : ℚ) (b : Bool)
    (hx : layer.masked_dispersion[i]? = some x)
    (hb : layer.layer_mask[i]? = some b) :
    ∃ mask mb, get_roi_mask w layer roi = some mask ∧ mask[i]? = some mb ∧
      (mb = true ↔
        ((∃ r ∈ used_rois w._rois roi,
            r.region.1 ≤ x ∧ x ≤ r.region.2) ∧ b = true)) := by
  have hfind : w._plots.find? (fun p => p.layer = layer) = some c := hc
  have hdec := List.find?_some hfind
  have hlayer : c.layer = layer := by simpa using hdec
  obtain ⟨r0, rs, hrs⟩ : ∃ r0 rs, used_rois w._rois roi = r0 :: rs := by
    cases h : used_rois w._rois roi with
    | nil => exact absurd h hne
    | cons a l => exact ⟨a, l, rfl⟩
  have hxc : c.layer.masked_dispersion[i]? = some x := by
    rw [hlayer]; exact hx
  have hbc : c.layer.layer_mask[i]? = some b := by
    rw [hlayer]; exact hb
  have hfold := foldl_zipOr_getElem? c.layer.masked_dispersion i x hxc rs
    (roiMask c.layer.masked_dispersion r0.getRegion.1 r0.getRegion.2)
    (decide (r0.getRegion.1 ≤ x) && decide (x ≤ r0.getRegion.2))
    (roiMask_getElem? _ _ hxc)
  have hzip := zipAnd_getElem? hbc hfold
  refine ⟨_, _, ?_, hzip, ?_⟩
  · simp only [get_roi_mask, hc, hrs, List.map_cons]
  · rw [hrs]
    simp only [Bool.and_eq_true, Bool.or_eq_true, decide_eq_true_eq,
      List.any_eq_true, LinearRegionItem.getRegion, List.mem_cons]
    constructor
    · rintro ⟨hbv, hunion⟩
      refine ⟨?_, hbv⟩
      rcases hunion with ⟨h1, h2⟩ | ⟨r, hr, h1, h2⟩
      · exact ⟨r0, Or.inl rfl, h1, h2⟩
      · exact ⟨r, Or.inr hr, h1, h2⟩
    · rintro ⟨⟨r, hr, h1, h2⟩, hbv⟩
      refine ⟨hbv, ?_⟩
      rcases hr with rfl | hr
      · exact Or.inl ⟨h1, h2⟩
      · exact Or.inr ⟨r, hr, h1, h2⟩

/-- Witness for C1 at a concrete window: sample `0` of `layerEx` (wavelength
`1`) lies in the first ROI `[0, 2]` and the layer mask is true there. -/
theorem get_roi_mask_union_and_layer_mask_witness :
    ∃ mask mb, get_roi_mask windowTwoRois layerEx none = some mask ∧
      mask[0]? = some mb ∧
      (mb = true ↔
        ((∃ r ∈ used_rois windowTwoRois._rois none,
            r.region.1 ≤ (1 : ℚ) ∧ (1 : ℚ) ≤ r.region.2) ∧ true = true)) := by
  exact get_roi_mask_union_and_layer_mask windowTwoRois layerEx none
    ⟨layerEx⟩ (by decide) (by decide) 0 1 true rfl rfl

/-- Counterexample for C1 as stated: the pyfocal implementation returns a
mask that is true at sample `0` of `cexLayer` although the layer's own
validity mask is false there, so the mask is not intersected with the
layer's validity mask. -/
theorem pf_get_roi_mask_ignores_layer_mask_cex :
    pf_get_roi_mask cexWindow cexLayer none = some [true] ∧
    cexLayer.layer_mask = [false] := by
  constructor
  · decide
  · rfl

/-- Zipping a list with a mapped copy of itself pairs every element with its
image. -/
theorem zip_map_self {α β : Type} (f : α → β) (l : List α) :
    l.zip (l.map f) = l.map (fun a => (a, f a)) := by
  induction l with
  | nil => rfl
  | cons a l ih => simp [ih]

/-- The rebuild loop preserves the number of rows. -/
theorem zoom_rebuild_length (l : List (LLRow × ℚ)) :
    ∀ (items : List Nat) (u : Nat),
      (zoom_rebuild l items u).1.length = l.length := by
  induction l with
  | nil => intro items u; rfl
  | cons p rest ih =>
    intro items u
    obtain ⟨r0, h0⟩ := p
    simp [zoom_rebuild, ih]

/-- Row `i` of the rebuild loop's output: the same row with a newly
constructed marker of uid `u + i`, the old marker's x-coordinate and the
supplied height. -/
theorem zoom_rebuild_rows (l : List (LLRow × ℚ)) :
    ∀ (items : List Nat) (u i : Nat) (row : LLRow) (hgt : ℚ),
      l[i]? = some (row, hgt) →
      (zoom_rebuild l items u).1[i]? =
        some { row with marker := ⟨u + i, row.marker.x, hgt⟩ } := by
  induction l with
  | nil =>
    intro items u i row hgt hl
    simp at hl
  | cons p rest ih =>
    intro items u i row hgt hl
    obtain ⟨r0, h0⟩ := p
    cases i with
    | zero =>
      simp only [List.getElem?_cons_zero, Option.some.injEq,
        Prod.mk.injEq] at hl
      obtain ⟨h1, h2⟩ := hl
      subst h1
      subst h2
      simp [zoom_rebuild]
    | succ i =>
      simp only [List.getElem?_cons_succ] at hl
      have hrec := ih (items.erase r0.marker.uid) (u + 1) i row hgt hl
      have harith : u + 1 + i = u + (i + 1) := by omega
      simp only [zoom_rebuild, List.getElem?_cons_succ, hrec, harith]

/-- Every row produced by the rebuild loop carries a marker whose uid was
taken from the freshness counter, hence is at least the starting counter. -/
theorem zoom_rebuild_uid_ge (l : List (LLRow × ℚ)) :
    ∀ (items : List Nat) (u : Nat) (row : LLRow),
      row ∈ (zoom_rebuild l items u).1 → u ≤ row.marker.uid := by
  induction l with
  | nil =>
    intro items u row hmem
    simp [zoom_rebuild] at hmem
  | cons p rest ih =>
    intro items u row hmem
    obtain ⟨r0, h0⟩ := p
    simp only [zoom_rebuild, List.mem_cons] at hmem
    rcases hmem with h | h
    · subst h; simp
    · have := ih _ (u + 1) row h
      omega

/-- The plot-item set left after the rebuild loop's removals is a sublist of
the one it started from. -/
theorem zoom_rebuild_items_sublist (l : List (LLRow × ℚ)) :
    ∀ (items : List Nat) (u : Nat),
      (zoom_rebuild l items u).2.1.Sublist items := by
  induction l with
  | nil =>
    intro items u
    exact List.Sublist.refl items
  | cons p rest ih =>
    intro items u
    obtain ⟨r0, h0⟩ := p
    exact (ih _ _).trans (List.erase_sublist _ _)

/-- If the plot-item set has no duplicates, the uid of every marker the
rebuild loop visits is gone from the plot-item set it leaves behind. -/
theorem zoom_rebuild_removes (l : List (LLRow × ℚ)) :
    ∀ (items : List Nat) (u : Nat) (row : LLRow) (hgt : ℚ),
      items.Nodup → (row, hgt) ∈ l →
      row.marker.uid ∉ (zoom_rebuild l items u).2.1 := by
  induction l with
  | nil =>
    intro items u row hgt hnd hmem
    simp at hmem
  | cons p rest ih =>
    intro items u row hgt hnd hmem
    obtain ⟨r0, h0⟩ := p
    rcases List.mem_cons.mp hmem with h | h
    · injection h with h1 h2
      subst h1
      intro hcontra
      have hsub := zoom_rebuild_items_sublist rest
        (items.erase row.marker.uid) (u + 1)
      have hmm : row.marker.uid ∈ items.erase row.marker.uid :=
        hsub.subset hcontra
      exact ((List.Nodup.mem_erase_iff hnd).mp hmm).1 rfl
    · exact ih _ _ row hgt (hnd.erase _) h

/-- Every action the rebuild loop itself emits is an item removal. -/
theorem zoom_rebuild_trace_removeItem (l : List (LLRow × ℚ)) :
    ∀ (items : List Nat) (u : Nat) (a : PlotAction),
      a ∈ (zoom_rebuild l items u).2.2.1 →
      ∃ v, a = PlotAction.removeItem v := by
  induction l with
  | nil =>
    intro items u a ha
    simp [zoom_rebuild] at ha
  | cons p rest ih =>
    intro items u a ha
    obtain ⟨r0, h0⟩ := p
    simp only [zoom_rebuild, List.mem_cons] at ha
    rcases ha with h | h
    · exact ⟨_, h⟩
    · exact ih _ _ a h

/-- C5: on a zoom handled while markers are displayed, every marker of the
merged line list's marker column is replaced by a newly constructed marker
object (uid fresh, distinct from every previously existing marker), the old
marker is removed from the plot surface (not repositioned), and the new
marker carries the old marker's x-coordinate and the newly computed height
as its y-coordinate. -/
theorem handle_zoom_rebuilds_markers (w : ZoomWindow) (xrange yrange : ℚ × ℚ)
    (ll : MergedLineList)
    (hll : w.merged_linelist = some ll)
    (hdisp : w._is_displaying_markers = true)
    (hfresh : ∀ row ∈ ll, row.marker.uid < w.next_uid)
    (hnodup : w.plot_items.Nodup) :
    ∃ rows, (handle_zoom w xrange yrange).1.merged_linelist = some rows ∧
      rows.length = ll.length ∧
      ∀ i row, ll[i]? = some row →
        rows[i]? = some { row with marker :=
          ⟨w.next_uid + i, row.marker.x,
           (yrange.2 - yrange.1) * row.height + yrange.1⟩ } ∧
        (∀ row0 ∈ ll, row0.marker.uid ≠ w.next_uid + i) ∧
        row.marker.uid ∉ (handle_zoom w xrange yrange).1.plot_items := by
  refine ⟨(zoom_rebuild (ll.zip (_compute_height ll yrange))
      w.plot_items w.next_uid).1, ?_, ?_, ?_⟩
  · simp only [handle_zoom, hll, hdisp]
  · rw [zoom_rebuild_length, List.length_zip, _compute_height,
      List.length_map]
    exact Nat.min_self _
  · intro i row hrow
    have hmemz : (ll.zip (_compute_height ll yrange))[i]? =
        some (row, (yrange.2 - yrange.1) * row.height + yrange.1) := by
      rw [_compute_height, zip_map_self, List.getElem?_map, hrow]
      rfl
    refine ⟨zoom_rebuild_rows _ _ _ _ _ _ hmemz, ?_, ?_⟩
    · intro row0 h0
      have := hfresh row0 h0
      omega
    · have hmem := List.getElem?_mem hmemz
      have hnotrem := zoom_rebuild_removes _ w.plot_items w.next_uid _ _
        hnodup hmem
      simp only [handle_zoom, hll, hdisp]
      intro hmm
      rcases List.mem_append.mp hmm with h | h
      · exact hnotrem h
      · obtain ⟨row2, hrow2, huid⟩ := List.mem_map.mp h
        have huid2 : row2.marker.uid = row.marker.uid := huid
        have hge := zoom_rebuild_uid_ge _ _ _ _ hrow2
        have hlt := hfresh row (List.getElem?_mem hrow)
        omega

/-- Witness for C5 at a concrete zoom-window state. -/
theorem handle_zoom_rebuilds_markers_witness :
    ∃ rows,
      (handle_zoom zoomEx (0, 100) (0, 10)).1.merged_linelist = some rows ∧
      rows.length = llEx.length ∧
      ∀ i row, llEx[i]? = some row →
        rows[i]? = some { row with marker :=
          ⟨12 + i, row.marker.x, (10 - 0) * row.height + 0⟩ } ∧
        (∀ row0 ∈ llEx, row0.marker.uid ≠ 12 + i) ∧
        row.marker.uid ∉ (handle_zoom zoomEx (0, 100) (0, 10)).1.plot_items := by
  exact handle_zoom_rebuilds_markers zoomEx (0, 100) (0, 10) llEx rfl rfl
    (by decide) (by decide)

/-- C8: whenever `handle_zoom` recomputes markers (merged line list present,
markers displayed), its action trace detaches the y-range-changed
subscription first, reattaches it last, and contains no other connect or
disconnect: the rebuild's side effects cannot recursively re-enter the
handler. -/
theorem handle_zoom_detaches_subscription (w : ZoomWindow)
    (xrange yrange : ℚ × ℚ) (ll : MergedLineList)
    (hll : w.merged_linelist = some ll)
    (hdisp : w._is_displaying_markers = true) :
    ∃ t, (handle_zoom w xrange yrange).2 =
        PlotAction.disconnectYRange :: (t ++ [PlotAction.connectYRange]) ∧
      PlotAction.disconnectYRange ∉ t ∧
      PlotAction.connectYRange ∉ t := by
  refine ⟨(zoom_rebuild (ll.zip (_compute_height ll yrange))
        w.plot_items w.next_uid).2.2.1
      ++ (zoom_rebuild (ll.zip (_compute_height ll yrange))
        w.plot_items w.next_uid).1.map
          (fun row => PlotAction.addItem row.marker.uid)
      ++ [PlotAction.update], ?_, ?_, ?_⟩
  · simp only [handle_zoom, hll, hdisp]
    simp [List.append_assoc]
  · intro hmem
    rcases List.mem_append.mp hmem with h12 | hu
    · rcases List.mem_append.mp h12 with h1 | h2
      · obtain ⟨v, hv⟩ := zoom_rebuild_trace_removeItem _ _ _ _ h1
        simp at hv
      · obtain ⟨row2, hrow2, habs⟩ := List.mem_map.mp h2
        simp at habs
    · simp at hu
  · intro hmem
    rcases List.mem_append.mp hmem with h12 | hu
    · rcases List.mem_append.mp h12 with h1 | h2
      · obtain ⟨v, hv⟩ := zoom_rebuild_trace_removeItem _ _ _ _ h1
        simp at hv
      · obtain ⟨row2, hrow2, habs⟩ := List.mem_map.mp h2
        simp at habs
    · simp at hu

/-- Witness for C8 at a concrete zoom-window state. -/
theorem handle_zoom_detaches_subscription_witness :
    ∃ t, (handle_zoom zoomEx (0, 100) (0, 10)).2 =
        PlotAction.disconnectYRange :: (t ++ [PlotAction.connectYRange]) ∧
      PlotAction.disconnectYRange ∉ t ∧
      PlotAction.connectYRange ∉ t := by
  exact handle_zoom_detaches_subscription zoomEx (0, 100) (0, 10) llEx rfl rfl
